import Mathlib

/-!
# libheif item API (`libheif/heif_items.cc`)

A shallow embedding of the item directory functions of `heif_items.cc`:
listing items, reading their metadata and payload, creating items, adding
item references and naming items.

Conventions of the embedding.

* A C pointer that may be null is an `Option`: `none` is `nullptr`, `some v`
  is a valid pointer whose pointee currently holds `v`.  A function writing
  through a pointer returns the new pointee.
* A raw destination (`void* out_data`, `heif_item_id* ID_array`) is an
  address into a flat memory, a function from addresses to cells.
* A `const char*` argument is a `String`; a returned `const char*` is an
  `Option String`.
* A mutating function returns the new `heif_context` next to its C result.
* A byte count or element count passed as `int` (`size`, `num_to_items`) is
  a natural number; a pointer with a count denotes the first so many cells
  of the memory behind it.
* The error text that `error_struct` leaves in the buffer of the context is
  not part of the state.
* `file.h`, `context.h`, `error.h`, `box.h` and `heif.h` are not among the
  sources: what `heif_items.cc` uses of them is modelled, and marked so.
-/

set_option autoImplicit false

namespace libheif

/-! ## Basic types (`heif.h`, `error.h`) -/

/-- The item identifier type, `uint32_t` in C. -/
abbrev heif_item_id := Nat

/-- One byte. -/
abbrev uint8_t := Fin 256

/-- Main error codes of `heif.h` that the item API can produce. -/
inductive heif_error_code where
  | heif_error_Ok
  | heif_error_Input_does_not_exist
  | heif_error_Invalid_input
  | heif_error_Unsupported_feature
  | heif_error_Usage_error
  | heif_error_Memory_allocation_error
  deriving DecidableEq, Repr

/-- Sub-error codes of `heif.h` that the item API can produce. -/
inductive heif_suberror_code where
  | heif_suberror_Unspecified
  | heif_suberror_Nonexisting_item_referenced
  | heif_suberror_Invalid_parameter_value
  | heif_suberror_Security_limit_exceeded
  | heif_suberror_Unsupported_header_compression_method
  | heif_suberror_Decompression_invalid_data
  deriving DecidableEq, Repr

open heif_error_code heif_suberror_code

/-- The C error structure returned by every API function. -/
structure heif_error where
  code : heif_error_code
  subcode : heif_suberror_code
  message : String
  deriving DecidableEq, Repr

/-- The constant `heif_error_success`. -/
def heif_error_success : heif_error :=
  ⟨heif_error_Ok, heif_suberror_Unspecified, "Success"⟩

/-- Modelled from the spec: the C++ class `Error` of `error.h`, which is not
among the sources.  It carries a main code, a sub code and a message. -/
structure Error where
  error_code : heif_error_code
  sub_error_code : heif_suberror_code
  message : String
  deriving DecidableEq, Repr

/-- Modelled from the spec: `Error::Ok`, the value that stands for success. -/
def Error.Ok : Error := ⟨heif_error_Ok, heif_suberror_Unspecified, ""⟩

/-- Modelled from the spec: `Error::operator bool`, true for a failure, as
used in `if (err)`. -/
def Error.toBool (e : Error) : Bool := e.error_code != heif_error_Ok

/-- Modelled from the spec: `Error::error_struct`, the conversion to the C
structure.  Code and sub code are carried over; success gets the message
of `heif_error_success`. -/
def Error.error_struct (e : Error) : heif_error :=
  ⟨e.error_code, e.sub_error_code,
    if e.error_code = heif_error_Ok then "Success" else e.message⟩

/-- Modelled from the spec: the class template `Result<T>` of `error.h`, a
value together with an `Error`. -/
structure Result (T : Type) where
  value : T
  error : Error

/-- Modelled from the spec: `Result::operator bool`, true when the result
carries no error, as used in `if (result && out_item_id)`. -/
def Result.toBool {T : Type} (r : Result T) : Bool :=
  r.error.error_code == heif_error_Ok

/-! The error kinds of the specification, as `Error` values. -/

/-- Error kind `ItemNotFound`: the codes used by `heif_context_add_item_name`. -/
def Error.ItemNotFound : Error :=
  ⟨heif_error_Input_does_not_exist, heif_suberror_Nonexisting_item_referenced,
    "Item does not exist"⟩

/-- Modelled from the spec: error kind `InvalidArgument`. -/
def Error.InvalidArgument : Error :=
  ⟨heif_error_Usage_error, heif_suberror_Invalid_parameter_value, "Invalid argument"⟩

/-- Modelled from the spec: error kind `AllocationFailure`. -/
def Error.AllocationFailure : Error :=
  ⟨heif_error_Memory_allocation_error, heif_suberror_Security_limit_exceeded,
    "Item id space exhausted"⟩

/-- Modelled from the spec: error kind `DecodeFailure`. -/
def Error.DecodeFailure : Error :=
  ⟨heif_error_Invalid_input, heif_suberror_Decompression_invalid_data, "Decode failure"⟩

/-- Modelled from the spec: error kind `UnsupportedCompression`. -/
def Error.UnsupportedCompression : Error :=
  ⟨heif_error_Unsupported_feature, heif_suberror_Unsupported_header_compression_method,
    "Unsupported compression"⟩

/-- Modelled from the spec: the enumeration `heif_metadata_compression` of
`heif.h`, the name of the transform applied to a stored payload;
`heif_metadata_compression_off` declares none. -/
inductive heif_metadata_compression where
  | heif_metadata_compression_off
  | heif_metadata_compression_auto
  | heif_metadata_compression_deflate
  deriving DecidableEq, Repr

open heif_metadata_compression

/-- Modelled from the spec: `fourcc`, the 32 bit code made of the first four
bytes of a string, most significant first (a missing byte reads as 0). -/
def fourcc (s : String) : Nat :=
  let b := fun (i : Nat) => (s.data.getD i (Char.ofNat 0)).toNat % 256
  b 0 * 2 ^ 24 + b 1 * 2 ^ 16 + b 2 * 2 ^ 8 + b 3

/-- The C cast `(int) n` of a `size_t`: reduction to 32 bits, two's complement. -/
def int_cast (n : Nat) : Int :=
  ((n + 2 ^ 31) % 2 ^ 32 : Nat) - (2 ^ 31 : Int)

/-! ## Boxes and the file (`box.h`, `file.h`) -/

/-- Modelled from the spec: the item info box `Box_infe`, one per item: id,
type, name, MIME content type, URI type and declared compression. -/
structure Box_infe where
  m_item_ID : heif_item_id
  m_item_type : String
  m_item_name : String
  m_content_type : String
  m_item_uri_type : String
  m_content_encoding : heif_metadata_compression
  deriving DecidableEq, Repr

/-- Getter `Box_infe::get_item_ID`. -/
def Box_infe.get_item_ID (b : Box_infe) : heif_item_id := b.m_item_ID

/-- Getter `Box_infe::get_item_type`. -/
def Box_infe.get_item_type (b : Box_infe) : String := b.m_item_type

/-- Getter `Box_infe::get_item_name`. -/
def Box_infe.get_item_name (b : Box_infe) : String := b.m_item_name

/-- Getter `Box_infe::get_content_type`. -/
def Box_infe.get_content_type (b : Box_infe) : String := b.m_content_type

/-- Getter `Box_infe::get_item_uri_type`. -/
def Box_infe.get_item_uri_type (b : Box_infe) : String := b.m_item_uri_type

/-- Setter `Box_infe::set_item_name`. -/
def Box_infe.set_item_name (b : Box_infe) (name : String) : Box_infe :=
  { b with m_item_name := name }

/-- Modelled from the spec: one reference edge of the `iref` box: source
item, relation code and ordered targets. -/
structure Reference where
  from_item_ID : heif_item_id
  type : Nat
  to_item_ID : List heif_item_id
  deriving DecidableEq, Repr

/-- Modelled from the spec: the external collaborator ByteCodec.  `encode`
answers `none` for `UnsupportedCompression`, `decode` answers `none` for
`DecodeFailure`. -/
structure ByteCodec where
  encode : heif_metadata_compression → List uint8_t → Option (List uint8_t)
  decode : heif_metadata_compression → List uint8_t → Option (List uint8_t)

/-- Modelled from the spec: the contract of ByteCodec, a compression
transform is reversible: decoding what `encode` produced gives the bytes
back. -/
def ByteCodec.reversible (codec : ByteCodec) : Prop :=
  ∀ (name : heif_metadata_compression) (bytes stored : List uint8_t),
    codec.encode name bytes = some stored → codec.decode name stored = some bytes

/-- Modelled from the spec: the class `HeifFile` of `file.h`: the item
registry in creation order, the reference edges in insertion order, the
stored (transformed) payload of each item, and the codec in use. -/
structure HeifFile where
  m_infe_boxes : List Box_infe
  m_references : List Reference
  m_item_data : List (heif_item_id × List uint8_t)
  m_codec : ByteCodec

namespace HeifFile

/-- Modelled from the spec: `HeifFile::get_number_of_items` (count), the
number of registered items. -/
def get_number_of_items (f : HeifFile) : Nat := f.m_infe_boxes.length

/-- Modelled from the spec: `HeifFile::get_item_IDs` (list_items), the ids
of the registered items in creation order. -/
def get_item_IDs (f : HeifFile) : List heif_item_id :=
  f.m_infe_boxes.map Box_infe.get_item_ID

/-- Modelled from the spec: `HeifFile::get_infe_box`, the info box of the
item with the given id, or a null pointer when the id is unknown. -/
def get_infe_box (f : HeifFile) (ID : heif_item_id) : Option Box_infe :=
  f.m_infe_boxes.find? (fun b => b.get_item_ID == ID)

/-- Modelled from the spec: `HeifFile::get_item_type` (get_type), the type
of the item, the empty string when the id is unknown. -/
def get_item_type (f : HeifFile) (ID : heif_item_id) : String :=
  match f.get_infe_box ID with
  | none => ""
  | some b => b.get_item_type

/-- Replace the first box carrying the given id: the effect, on the file, of
mutating the box behind the shared pointer that `get_infe_box` returned. -/
def replace_infe_box (boxes : List Box_infe) (ID : heif_item_id) (b' : Box_infe) :
    List Box_infe :=
  match boxes with
  | [] => []
  | b :: rest =>
    if b.get_item_ID == ID then b' :: rest else b :: replace_infe_box rest ID b'

/-- Modelled from the spec: the next unused id: one above every id in use,
so that ids grow with creation and are never reused. -/
def get_unused_item_id (f : HeifFile) : heif_item_id :=
  f.get_item_IDs.foldl max 0 + 1

/-- Modelled from the spec: the payload as handed to storage (put): the
declared transform applied by the codec, none when compression is off. -/
def encode_payload (f : HeifFile) (compression : heif_metadata_compression)
    (bytes : List uint8_t) : Option (List uint8_t) :=
  if compression = heif_metadata_compression_off then some bytes
  else f.m_codec.encode compression bytes

/-- Modelled from the spec: create an item with the given description and
payload (create_item followed by put).  It fails with
`UnsupportedCompression` when the codec refuses the declared transform and
with `AllocationFailure` when the 32 bit id space is exhausted; a failure
leaves the file as it was. -/
def add_item_with_data (f : HeifFile) (item_type content_type item_uri_type : String)
    (compression : heif_metadata_compression) (bytes : List uint8_t) :
    Result heif_item_id × HeifFile :=
  match f.encode_payload compression bytes with
  | none => (⟨0, Error.UnsupportedCompression⟩, f)
  | some stored =>
    let id := f.get_unused_item_id
    if id < 2 ^ 32 then
      (⟨id, Error.Ok⟩,
        { f with
          m_infe_boxes := f.m_infe_boxes ++
            [⟨id, item_type, "", content_type, item_uri_type, compression⟩]
          m_item_data := (id, stored) :: f.m_item_data })
    else (⟨0, Error.AllocationFailure⟩, f)

/-- Modelled from the spec: `HeifFile::add_infe` (create_item with a
payload): a new item of the given type holding the first `size` bytes of
`data`, uncompressed. -/
def add_infe (f : HeifFile) (item_type : String) (data : List uint8_t) (size : Nat) :
    Result heif_item_id × HeifFile :=
  f.add_item_with_data item_type "" "" heif_metadata_compression_off (data.take size)

/-- Modelled from the spec: `HeifFile::add_infe_mime` (create_mime_item): a
new item of type "mime"; `content_type` must be non-empty, else it fails
with `InvalidArgument`. -/
def add_infe_mime (f : HeifFile) (content_type : String)
    (content_encoding : heif_metadata_compression) (data : List uint8_t) (size : Nat) :
    Result heif_item_id × HeifFile :=
  if content_type.isEmpty then (⟨0, Error.InvalidArgument⟩, f)
  else f.add_item_with_data "mime" content_type "" content_encoding (data.take size)

/-- Modelled from the spec: `HeifFile::add_infe_uri` (create_uri_item),
analogous to `add_infe_mime` for items of type "uri ". -/
def add_infe_uri (f : HeifFile) (item_uri_type : String) (data : List uint8_t)
    (size : Nat) : Result heif_item_id × HeifFile :=
  if item_uri_type.isEmpty then (⟨0, Error.InvalidArgument⟩, f)
  else f.add_item_with_data "uri " "" item_uri_type heif_metadata_compression_off
    (data.take size)

/-- Modelled from the spec: `HeifFile::add_iref_reference` (add_reference):
appends a new edge record.  The target list must be non-empty, else the
call fails with `InvalidArgument` and leaves the graph as it was.  The
result is the outcome together with the file after the call. -/
def add_iref_reference (f : HeifFile) (from_ : heif_item_id) (type : Nat)
    (to_ : List heif_item_id) : Error × HeifFile :=
  if to_.isEmpty then (Error.InvalidArgument, f)
  else (Error.Ok, { f with m_references := f.m_references ++ [⟨from_, type, to_⟩] })

/-- Modelled from the spec: references_of, the edge records with the given
source and relation code, in insertion order. -/
def references_of (f : HeifFile) (from_ : heif_item_id) (type : Nat) : List Reference :=
  f.m_references.filter (fun r => r.from_item_ID == from_ && r.type == type)

/-- Modelled from the spec: `HeifFile::get_compressed_image_data`
(payload resolution): the decompressed payload of the item.  It fails with
`ItemNotFound` for an unknown id and with `DecodeFailure` when the codec
cannot reverse the declared transform; an item without stored bytes has the
empty payload.  The second component is the vector `data` after the call. -/
def get_compressed_image_data (f : HeifFile) (ID : heif_item_id) :
    Error × List uint8_t :=
  match f.get_infe_box ID with
  | none => (Error.ItemNotFound, [])
  | some b =>
    let stored := (f.m_item_data.lookup ID).getD []
    if b.m_content_encoding = heif_metadata_compression_off then (Error.Ok, stored)
    else
      match f.m_codec.decode b.m_content_encoding stored with
      | none => (Error.DecodeFailure, [])
      | some bytes => (Error.Ok, bytes)

end HeifFile

/-- Modelled from the spec: the class `HeifContext` of `context.h`, owner of
the file. -/
structure HeifContext where
  m_heif_file : HeifFile

/-- Getter `HeifContext::get_heif_file`. -/
def HeifContext.get_heif_file (c : HeifContext) : HeifFile := c.m_heif_file

/-- The C handle `struct heif_context` of `api_structs.h`. -/
structure heif_context where
  context : HeifContext

/-- The context whose file has been replaced, after a mutating call. -/
def heif_context.with_file (_ctx : heif_context) (f : HeifFile) : heif_context :=
  ⟨⟨f⟩⟩

/-! ## Reading (`heif_items.cc`, lines 33 to 143) -/

/-- Function `heif_context_get_number_of_items`. -/
def heif_context_get_number_of_items (ctx : heif_context) : Int :=
  int_cast ctx.context.get_heif_file.get_number_of_items

/-- The `for` loop of `heif_context_get_list_of_item_IDs`, entered with loop
variable `i`; `size` is the loop bound `(int) ids.size()`.  The result is the
returned value and the array after the call. -/
def get_list_of_item_IDs_loop (ids : List heif_item_id) (size : Int) (count : Int)
    (i : Nat) (ID_array : Nat → heif_item_id) : Int × (Nat → heif_item_id) :=
  if (i : Int) < size then
    if (i : Int) = count then (count, ID_array)
    else
      get_list_of_item_IDs_loop ids size count (i + 1)
        (Function.update ID_array i (ids.getD i 0))
  else (size, ID_array)
termination_by (size - (i : Int)).toNat
decreasing_by omega

/-- Function `heif_context_get_list_of_item_IDs`.  `ID_array` is the memory
seen through the pointer, indexed by slot. -/
def heif_context_get_list_of_item_IDs (ctx : heif_context)
    (ID_array : Nat → heif_item_id) (count : Int) : Int × (Nat → heif_item_id) :=
  let ids := ctx.context.get_heif_file.get_item_IDs
  get_list_of_item_IDs_loop ids (int_cast ids.length) count 0 ID_array

/-- Function `heif_context_get_item_type`. -/
def heif_context_get_item_type (ctx : heif_context) (item_id : heif_item_id) : Nat :=
  let type := ctx.context.get_heif_file.get_item_type item_id
  if type.isEmpty then 0 else fourcc type

/-- Function `heif_context_get_mime_item_content_type`. -/
def heif_context_get_mime_item_content_type (ctx : heif_context)
    (item_id : heif_item_id) : Option String :=
  match ctx.context.get_heif_file.get_infe_box item_id with
  | none => none
  | some infe =>
    if infe.get_item_type != "mime" then none
    else some infe.get_content_type

/-- Function `heif_context_get_uri_item_uri_type`. -/
def heif_context_get_uri_item_uri_type (ctx : heif_context)
    (item_id : heif_item_id) : Option String :=
  match ctx.context.get_heif_file.get_infe_box item_id with
  | none => none
  | some infe =>
    if infe.get_item_type != "uri " then none
    else some infe.get_item_uri_type

/-- Function `heif_context_get_item_name`. -/
def heif_context_get_item_name (ctx : heif_context) (item_id : heif_item_id) :
    Option String :=
  match ctx.context.get_heif_file.get_infe_box item_id with
  | none => none
  | some infe => some infe.get_item_name

/-- Function `heif_context_get_item_data(ctx, item_id, uint8_t** out_data,
size_t* out_data_size)`, the allocating retrieval.  `out_data` is `none` for
a null pointer, else the current `*out_data` (`none` for a null buffer
pointer, `some bytes` for a buffer holding `bytes`); `out_data_size` is the
current `*out_data_size`.  The result is the error together with the new
`*out_data` and `*out_data_size`. -/
def heif_context_get_item_data (ctx : heif_context) (item_id : heif_item_id)
    (out_data : Option (Option (List uint8_t))) (out_data_size : Nat) :
    heif_error × Option (Option (List uint8_t)) × Nat :=
  let (err, data) := ctx.context.get_heif_file.get_compressed_image_data item_id
  if err.toBool then (err.error_struct, out_data, out_data_size)
  else
    (heif_error_success,
      (match out_data with
        | some _ => some (some (data.take data.length))
        | none => none),
      data.length)

/-- Function `heif_release_item_data`: the new `*item_data`. -/
def heif_release_item_data (_item_data : Option (List uint8_t)) :
    Option (List uint8_t) :=
  none

/-- Flat byte memory, indexed by address. -/
abbrev Memory := Nat → uint8_t

/-- Library function `memcpy(dest, src, n)`: the `n` bytes at `dest` take
the first `n` bytes of `src`, every other byte keeps its value. -/
def memcpy (mem : Memory) (dest : Nat) (src : List uint8_t) (n : Nat) : Memory :=
  fun a => if dest ≤ a ∧ a < dest + n then src.getD (a - dest) 0 else mem a

/-- Function `heif_context_get_item_data(ctx, item_id, void* out_data)`, the
retrieval into a caller buffer at address `out_data` of memory `mem`.  The
result is the error together with the memory after the call. -/
def heif_context_get_item_data_void (ctx : heif_context) (item_id : heif_item_id)
    (out_data : Nat) (mem : Memory) : heif_error × Memory :=
  let (err, data) := ctx.context.get_heif_file.get_compressed_image_data item_id
  if err.toBool then (err.error_struct, mem)
  else (heif_error_success, memcpy mem out_data data data.length)

/-! ## Writing (`heif_items.cc`, lines 145 to 234) -/

/-- Function `heif_context_add_item`.  `out_item_id` is `none` for a null
pointer, else the current `*out_item_id`; the result carries the new
context and the new `*out_item_id`. -/
def heif_context_add_item (ctx : heif_context) (item_type : String)
    (data : List uint8_t) (size : Nat) (out_item_id : Option heif_item_id) :
    heif_error × heif_context × Option heif_item_id :=
  let (result, file) := ctx.context.get_heif_file.add_infe item_type data size
  if result.toBool && out_item_id.isSome then
    (heif_error_success, ctx.with_file file, some result.value)
  else
    (result.error.error_struct, ctx.with_file file, out_item_id)

/-- Function `heif_context_add_mime_item`. -/
def heif_context_add_mime_item (ctx : heif_context) (content_type : String)
    (content_encoding : heif_metadata_compression) (data : List uint8_t) (size : Nat)
    (out_item_id : Option heif_item_id) :
    heif_error × heif_context × Option heif_item_id :=
  let (result, file) :=
    ctx.context.get_heif_file.add_infe_mime content_type content_encoding data size
  if result.toBool && out_item_id.isSome then
    (heif_error_success, ctx.with_file file, some result.value)
  else
    (result.error.error_struct, ctx.with_file file, out_item_id)

/-- Function `heif_context_add_uri_item`. -/
def heif_context_add_uri_item (ctx : heif_context) (item_uri_type : String)
    (data : List uint8_t) (size : Nat) (out_item_id : Option heif_item_id) :
    heif_error × heif_context × Option heif_item_id :=
  let (result, file) := ctx.context.get_heif_file.add_infe_uri item_uri_type data size
  if result.toBool && out_item_id.isSome then
    (heif_error_success, ctx.with_file file, some result.value)
  else
    (result.error.error_struct, ctx.with_file file, out_item_id)

/-- Function `heif_context_add_item_reference`.  The call of
`add_iref_reference` is a statement: what it returns is discarded, only its
effect on the file is kept. -/
def heif_context_add_item_reference (ctx : heif_context) (reference_type : String)
    (from_item to_item : heif_item_id) : heif_error × heif_context :=
  (heif_error_success,
    ctx.with_file
      (ctx.context.get_heif_file.add_iref_reference from_item (fourcc reference_type)
        [to_item]).2)

/-- Function `heif_context_add_item_references`.  `to_item` is the memory at
the pointer; the vector `to_refs` is built from its first `num_to_items`
entries.  The call of `add_iref_reference` is a statement: what it returns is
discarded, only its effect on the file is kept. -/
def heif_context_add_item_references (ctx : heif_context) (reference_type : String)
    (from_item : heif_item_id) (to_item : List heif_item_id) (num_to_items : Nat) :
    heif_error × heif_context :=
  let to_refs := to_item.take num_to_items
  (heif_error_success,
    ctx.with_file
      (ctx.context.get_heif_file.add_iref_reference from_item (fourcc reference_type)
        to_refs).2)

/-- Function `heif_context_add_item_name`. -/
def heif_context_add_item_name (ctx : heif_context) (item : heif_item_id)
    (item_name : String) : heif_error × heif_context :=
  let file := ctx.context.get_heif_file
  match file.get_infe_box item with
  | none =>
    (⟨heif_error_Input_does_not_exist, heif_suberror_Nonexisting_item_referenced,
      "Item does not exist"⟩, ctx)
  | some infe =>
    (heif_error_success,
      ctx.with_file
        { file with
          m_infe_boxes :=
            HeifFile.replace_infe_box file.m_infe_boxes item (infe.set_item_name item_name) })

/-! ## Example data -/

/-- A codec that knows one transform, deflate, and stands in for it with a
header byte 0 followed by the bytes in reverse order; it refuses every
other transform and every stream without the header. -/
def example_codec : ByteCodec where
  encode := fun c b =>
    if c = heif_metadata_compression_deflate then some (0 :: b.reverse) else none
  decode := fun c b =>
    if c = heif_metadata_compression_deflate then
      match b with
      | 0 :: rest => some rest.reverse
      | _ => none
    else none

/-- A file with a MIME item 1, a coded image item 2 and a MIME item 3 whose
stored stream is corrupt, and no references. -/
def example_file : HeifFile where
  m_infe_boxes :=
    [⟨1, "mime", "", "application/xml", "", heif_metadata_compression_off⟩,
     ⟨2, "av01", "", "", "", heif_metadata_compression_off⟩,
     ⟨3, "mime", "", "text/plain", "", heif_metadata_compression_deflate⟩]
  m_references := []
  m_item_data := [(3, [7]), (2, [9, 8]), (1, [1, 2, 3])]
  m_codec := example_codec

/-- The context owning `example_file`. -/
def example_ctx : heif_context := ⟨⟨example_file⟩⟩

/-- A memory holding 0 in every byte. -/
def zero_memory : Memory := fun _ => 0

/-! ## Listing the items -/

/-- The loop entered at `i`, with the bound equal to the number of ids and
`i` not beyond `count`: it returns the smaller of `count` and the number of
ids, and fills exactly the slots from `i` up to that value. -/
theorem get_list_of_item_IDs_loop_spec (ids : List heif_item_id) (count : Int) :
    ∀ (k i : Nat) (arr : Nat → heif_item_id), ids.length - i = k → i ≤ ids.length →
      (i : Int) ≤ count →
      (get_list_of_item_IDs_loop ids ids.length count i arr).1 = min count (ids.length : Int) ∧
      ∀ j : Nat, (get_list_of_item_IDs_loop ids ids.length count i arr).2 j =
        if i ≤ j ∧ (j : Int) < min count (ids.length : Int) then ids.getD j 0 else arr j := by
  intro k
  induction k with
  | zero =>
    intro i arr hk hi hc
    rw [get_list_of_item_IDs_loop]
    have h1 : ¬ ((i : Int) < ids.length) := by omega
    simp only [h1, if_false]
    refine ⟨by omega, fun j => ?_⟩
    have : ¬ (i ≤ j ∧ (j : Int) < min count (ids.length : Int)) := by omega
    rw [if_neg this]
  | succ k ih =>
    intro i arr hk hi hc
    rw [get_list_of_item_IDs_loop]
    have h1 : (i : Int) < ids.length := by omega
    simp only [h1, if_true]
    by_cases h2 : (i : Int) = count
    · simp only [h2, if_true]
      refine ⟨by omega, fun j => ?_⟩
      have : ¬ (i ≤ j ∧ (j : Int) < min count (ids.length : Int)) := by omega
      rw [if_neg this]
    · simp only [h2, if_false]
      obtain ⟨ih1, ih2⟩ := ih (i + 1) (Function.update arr i (ids.getD i 0)) (by omega)
        (by omega) (by omega)
      refine ⟨ih1, fun j => ?_⟩
      rw [ih2 j]
      by_cases hj : j = i
      · subst hj
        have a1 : ¬ (j + 1 ≤ j ∧ (j : Int) < min count (ids.length : Int)) := by omega
        have a2 : (j ≤ j ∧ (j : Int) < min count (ids.length : Int)) := by omega
        rw [if_neg a1, if_pos a2]
        simp
      · by_cases hc2 : i ≤ j ∧ (j : Int) < min count (ids.length : Int)
        · have a1 : (i + 1 ≤ j ∧ (j : Int) < min count (ids.length : Int)) := by omega
          rw [if_pos a1, if_pos hc2]
        · have a1 : ¬ (i + 1 ≤ j ∧ (j : Int) < min count (ids.length : Int)) := by omega
          rw [if_neg a1, if_neg hc2]
          simp [Function.update, hj]

/-- C9. `heif_context_get_list_of_item_IDs` is an ordered snapshot bounded
by the capacity of the caller: when the id list `ids` has the length that
`heif_context_get_number_of_items` reports and `count` is not negative, the
call returns `min count n`, slot `i` holds `ids[i]` for every `i` below that
value, in the same order, every slot from that value on keeps its content,
and with `count` at least `n` the array starts with the complete id list. -/
theorem get_list_of_item_IDs_ordered_snapshot (ctx : heif_context)
    (ID_array : Nat → heif_item_id) (count : Int)
    (hn : heif_context_get_number_of_items ctx =
      ((ctx.context.get_heif_file.get_item_IDs).length : Int))
    (hcount : 0 ≤ count) :
    (heif_context_get_list_of_item_IDs ctx ID_array count).1 =
        min count ((ctx.context.get_heif_file.get_item_IDs).length : Int) ∧
      (∀ i : Nat, (i : Int) < min count ((ctx.context.get_heif_file.get_item_IDs).length : Int) →
        (ctx.context.get_heif_file.get_item_IDs)[i]? =
          some ((heif_context_get_list_of_item_IDs ctx ID_array count).2 i)) ∧
      (∀ i : Nat, min count ((ctx.context.get_heif_file.get_item_IDs).length : Int) ≤ (i : Int) →
        (heif_context_get_list_of_item_IDs ctx ID_array count).2 i = ID_array i) ∧
      (((ctx.context.get_heif_file.get_item_IDs).length : Int) ≤ count →
        (List.range (ctx.context.get_heif_file.get_item_IDs).length).map
            (heif_context_get_list_of_item_IDs ctx ID_array count).2 =
          ctx.context.get_heif_file.get_item_IDs) := by
  have hlen : int_cast (ctx.context.get_heif_file.get_item_IDs).length =
      ((ctx.context.get_heif_file.get_item_IDs).length : Int) := by
    rw [← hn]
    unfold heif_context_get_number_of_items HeifFile.get_item_IDs HeifFile.get_number_of_items
    rw [List.length_map]
  have e : heif_context_get_list_of_item_IDs ctx ID_array count =
      get_list_of_item_IDs_loop (ctx.context.get_heif_file.get_item_IDs)
        ((ctx.context.get_heif_file.get_item_IDs).length : Int) count 0 ID_array := by
    unfold heif_context_get_list_of_item_IDs
    show get_list_of_item_IDs_loop _ (int_cast _) count 0 ID_array = _
    rw [hlen]
  obtain ⟨h1, h2⟩ := get_list_of_item_IDs_loop_spec (ctx.context.get_heif_file.get_item_IDs)
    count _ 0 ID_array rfl (Nat.zero_le _) (by simpa using hcount)
  rw [e]
  refine ⟨h1, ?_, ?_, ?_⟩
  · intro i hi
    rw [h2 i, if_pos ⟨Nat.zero_le _, hi⟩]
    have hil : i < (ctx.context.get_heif_file.get_item_IDs).length := by omega
    simp [List.getD, List.getElem?_eq_getElem hil]
  · intro i hi
    rw [h2 i, if_neg (by omega)]
  · intro hle
    apply List.ext_getElem
    · simp
    · intro i hi1 hi2
      simp only [List.getElem_map, List.getElem_range]
      rw [h2 i, if_pos ⟨Nat.zero_le _, by omega⟩]
      simp [List.getD, List.getElem?_eq_getElem hi2]

/-- Witness for C9 on `example_ctx` (ids 1, 2 and 3) with `count = 1`: the call
returns 1, slot 0 holds id 1 and slot 1 keeps its content 77. -/
theorem get_list_of_item_IDs_ordered_snapshot_witness :
    heif_context_get_number_of_items example_ctx =
        ((example_ctx.context.get_heif_file.get_item_IDs).length : Int) ∧
      (0 : Int) ≤ 1 ∧
      (heif_context_get_list_of_item_IDs example_ctx (fun _ => 77) 1).1 = 1 ∧
      (heif_context_get_list_of_item_IDs example_ctx (fun _ => 77) 1).2 0 = 1 ∧
      (heif_context_get_list_of_item_IDs example_ctx (fun _ => 77) 1).2 1 = 77 :=
  have h := get_list_of_item_IDs_ordered_snapshot example_ctx (fun _ => 77) 1
    (by decide) (by decide)
  ⟨by decide, by decide, h.1.trans (by decide),
    (Option.some.inj ((h.2.1 0 (by decide)).symm.trans (by decide))),
    h.2.2.1 1 (by decide)⟩

/-! ## Item metadata -/

/-- An id has no info box exactly when it is not among the item ids. -/
theorem get_infe_box_eq_none_iff (f : HeifFile) (ID : heif_item_id) :
    f.get_infe_box ID = none ↔ ID ∉ f.get_item_IDs := by
  simp [HeifFile.get_infe_box, HeifFile.get_item_IDs, List.find?_eq_none]

/-- The box found for an id carries that id. -/
theorem get_infe_box_item_ID (f : HeifFile) (ID : heif_item_id) (b : Box_infe)
    (h : f.get_infe_box ID = some b) : b.get_item_ID = ID := by
  have := List.find?_some h
  simpa using this

/-- After the replacement, the lookup of the replaced id finds the new box. -/
theorem find_replace_infe_box_same (boxes : List Box_infe) (ID : heif_item_id)
    (b b' : Box_infe) (hb' : b'.get_item_ID = ID)
    (h : boxes.find? (fun x => x.get_item_ID == ID) = some b) :
    (HeifFile.replace_infe_box boxes ID b').find? (fun x => x.get_item_ID == ID) = some b' := by
  induction boxes with
  | nil => simp at h
  | cons x rest ih =>
    by_cases hx : x.get_item_ID = ID
    · have e : HeifFile.replace_infe_box (x :: rest) ID b' = b' :: rest := by
        simp [HeifFile.replace_infe_box, hx]
      rw [e, List.find?_cons_of_pos _ (by simp [hb'])]
    · have e : HeifFile.replace_infe_box (x :: rest) ID b' =
          x :: HeifFile.replace_infe_box rest ID b' := by
        simp [HeifFile.replace_infe_box, hx]
      rw [List.find?_cons_of_neg _ (by simp [hx])] at h
      rw [e, List.find?_cons_of_neg _ (by simp [hx])]
      exact ih h

/-- The replacement does not change the lookup of any other id. -/
theorem find_replace_infe_box_other (boxes : List Box_infe) (ID other : heif_item_id)
    (b' : Box_infe) (hb' : b'.get_item_ID = ID) (hne : other ≠ ID) :
    (HeifFile.replace_infe_box boxes ID b').find? (fun x => x.get_item_ID == other) =
      boxes.find? (fun x => x.get_item_ID == other) := by
  induction boxes with
  | nil => simp [HeifFile.replace_infe_box]
  | cons x rest ih =>
    by_cases hx : x.get_item_ID = ID
    · have h1 : ¬ x.get_item_ID = other := fun h => hne (h.symm.trans hx)
      have h2 : ¬ b'.get_item_ID = other := fun h => hne (h.symm.trans hb')
      have e : HeifFile.replace_infe_box (x :: rest) ID b' = b' :: rest := by
        simp [HeifFile.replace_infe_box, hx]
      rw [e, List.find?_cons_of_neg _ (by simp [h2]), List.find?_cons_of_neg _ (by simp [h1])]
    · have e : HeifFile.replace_infe_box (x :: rest) ID b' =
          x :: HeifFile.replace_infe_box rest ID b' := by
        simp [HeifFile.replace_infe_box, hx]
      rw [e]
      by_cases ho : x.get_item_ID = other
      · rw [List.find?_cons_of_pos _ (by simp [ho]), List.find?_cons_of_pos _ (by simp [ho])]
      · rw [List.find?_cons_of_neg _ (by simp [ho]), List.find?_cons_of_neg _ (by simp [ho])]
        exact ih

/-- C6, as amended. `heif_context_get_mime_item_content_type` and
`heif_context_get_uri_item_uri_type` return the stored content type (URI
type) exactly when the item exists and its type is "mime" ("uri "), and
return the null pointer both when the id is unknown and when the item has
another type. -/
theorem get_content_subtype_value_or_null (ctx : heif_context) (item_id : heif_item_id) :
    (∀ s : String, heif_context_get_mime_item_content_type ctx item_id = some s ↔
      ∃ infe, ctx.context.get_heif_file.get_infe_box item_id = some infe ∧
        infe.get_item_type = "mime" ∧ infe.get_content_type = s) ∧
    (heif_context_get_mime_item_content_type ctx item_id = none ↔
      (ctx.context.get_heif_file.get_infe_box item_id = none ∨
        ∃ infe, ctx.context.get_heif_file.get_infe_box item_id = some infe ∧
          infe.get_item_type ≠ "mime")) ∧
    (∀ s : String, heif_context_get_uri_item_uri_type ctx item_id = some s ↔
      ∃ infe, ctx.context.get_heif_file.get_infe_box item_id = some infe ∧
        infe.get_item_type = "uri " ∧ infe.get_item_uri_type = s) ∧
    (heif_context_get_uri_item_uri_type ctx item_id = none ↔
      (ctx.context.get_heif_file.get_infe_box item_id = none ∨
        ∃ infe, ctx.context.get_heif_file.get_infe_box item_id = some infe ∧
          infe.get_item_type ≠ "uri ")) := by
  unfold heif_context_get_mime_item_content_type heif_context_get_uri_item_uri_type
  cases h : ctx.context.get_heif_file.get_infe_box item_id with
  | none => simp
  | some infe =>
    by_cases hm : infe.get_item_type = "mime" <;> by_cases hu : infe.get_item_type = "uri " <;>
      simp [hm, hu]

/-- C6, counterexample. In `example_ctx` item 2 exists with type "av01" and
id 4 is unknown, yet both queries answer the two ids with the same result,
the null pointer: the unknown id and the wrong item kind are not distinct
outcomes. -/
theorem get_content_subtype_not_found_same_as_wrong_kind :
    (example_ctx.context.get_heif_file.get_infe_box 2).map Box_infe.get_item_type =
        some "av01" ∧
      example_ctx.context.get_heif_file.get_infe_box 4 = none ∧
      heif_context_get_mime_item_content_type example_ctx 2 =
        heif_context_get_mime_item_content_type example_ctx 4 ∧
      heif_context_get_uri_item_uri_type example_ctx 2 =
        heif_context_get_uri_item_uri_type example_ctx 4 := by
  decide

/-- The result of `heif_context_add_item_name` for an unknown id. -/
theorem add_item_name_unknown (ctx : heif_context) (item : heif_item_id)
    (item_name : String) (h : ctx.context.get_heif_file.get_infe_box item = none) :
    heif_context_add_item_name ctx item item_name =
      (Error.ItemNotFound.error_struct, ctx) := by
  unfold heif_context_add_item_name
  simp only [h]
  rfl

/-- The result of `heif_context_add_item_name` for a known id. -/
theorem add_item_name_known (ctx : heif_context) (item : heif_item_id)
    (item_name : String) (infe : Box_infe)
    (h : ctx.context.get_heif_file.get_infe_box item = some infe) :
    heif_context_add_item_name ctx item item_name =
      (heif_error_success,
        ctx.with_file
          { ctx.context.get_heif_file with
            m_infe_boxes :=
              HeifFile.replace_infe_box ctx.context.get_heif_file.m_infe_boxes item
                (infe.set_item_name item_name) }) := by
  unfold heif_context_add_item_name
  simp only [h]

/-- After a successful `heif_context_add_item_name` the lookup of the named
item finds its box with the new name. -/
theorem add_item_name_lookup_same (ctx : heif_context) (item : heif_item_id)
    (item_name : String) (infe : Box_infe)
    (h : ctx.context.get_heif_file.get_infe_box item = some infe) :
    (heif_context_add_item_name ctx item item_name).2.context.get_heif_file.get_infe_box item =
      some (infe.set_item_name item_name) := by
  have hid : (infe.set_item_name item_name).get_item_ID = item :=
    get_infe_box_item_ID _ _ infe h
  rw [add_item_name_known ctx item item_name infe h]
  exact find_replace_infe_box_same _ _ infe _ hid h

/-- After `heif_context_add_item_name` the lookup of every other item is as
before. -/
theorem add_item_name_lookup_other (ctx : heif_context) (item other : heif_item_id)
    (item_name : String) (hne : other ≠ item) :
    (heif_context_add_item_name ctx item item_name).2.context.get_heif_file.get_infe_box other =
      ctx.context.get_heif_file.get_infe_box other := by
  cases h : ctx.context.get_heif_file.get_infe_box item with
  | none => rw [add_item_name_unknown ctx item item_name h]
  | some infe =>
    have hid : (infe.set_item_name item_name).get_item_ID = item :=
      get_infe_box_item_ID _ _ infe h
    rw [add_item_name_known ctx item item_name infe h]
    exact find_replace_infe_box_other _ _ _ _ hid hne

/-- C8. `heif_context_add_item_name` fails with the item-not-found error
exactly when the id is not a known item, and then the context is unchanged;
for a known item it returns success, `heif_context_get_item_name` then
returns the new name, the type of the item is unchanged, and name, type,
MIME content type and URI type of every other item are unchanged. -/
theorem add_item_name_sets_name_only (ctx : heif_context) (item : heif_item_id)
    (item_name : String) :
    ((heif_context_add_item_name ctx item item_name).1 = Error.ItemNotFound.error_struct ↔
        item ∉ ctx.context.get_heif_file.get_item_IDs) ∧
      (item ∉ ctx.context.get_heif_file.get_item_IDs →
        (heif_context_add_item_name ctx item item_name).2 = ctx) ∧
      (item ∈ ctx.context.get_heif_file.get_item_IDs →
        (heif_context_add_item_name ctx item item_name).1 = heif_error_success ∧
        heif_context_get_item_name (heif_context_add_item_name ctx item item_name).2 item =
          some item_name ∧
        (heif_context_add_item_name ctx item item_name).2.context.get_heif_file.get_item_type item =
          ctx.context.get_heif_file.get_item_type item ∧
        heif_context_get_item_type (heif_context_add_item_name ctx item item_name).2 item =
          heif_context_get_item_type ctx item ∧
        ∀ other : heif_item_id, other ≠ item →
          heif_context_get_item_name (heif_context_add_item_name ctx item item_name).2 other =
            heif_context_get_item_name ctx other ∧
          (heif_context_add_item_name ctx item item_name).2.context.get_heif_file.get_item_type
              other = ctx.context.get_heif_file.get_item_type other ∧
          heif_context_get_item_type (heif_context_add_item_name ctx item item_name).2 other =
            heif_context_get_item_type ctx other ∧
          heif_context_get_mime_item_content_type
              (heif_context_add_item_name ctx item item_name).2 other =
            heif_context_get_mime_item_content_type ctx other ∧
          heif_context_get_uri_item_uri_type
              (heif_context_add_item_name ctx item item_name).2 other =
            heif_context_get_uri_item_uri_type ctx other) := by
  cases h : ctx.context.get_heif_file.get_infe_box item with
  | none =>
    have hn : item ∉ ctx.context.get_heif_file.get_item_IDs :=
      (get_infe_box_eq_none_iff _ _).1 h
    have e := add_item_name_unknown ctx item item_name h
    refine ⟨?_, ?_, ?_⟩
    · rw [e]; exact ⟨fun _ => hn, fun _ => rfl⟩
    · intro _; rw [e]
    · intro hm; exact absurd hm hn
  | some infe =>
    have hm : ¬ item ∉ ctx.context.get_heif_file.get_item_IDs := by
      rw [← get_infe_box_eq_none_iff, h]; simp
    have h1 : (heif_context_add_item_name ctx item item_name).1 = heif_error_success := by
      rw [add_item_name_known ctx item item_name infe h]
    have h2 := add_item_name_lookup_same ctx item item_name infe h
    refine ⟨?_, ?_, ?_⟩
    · rw [h1]
      exact ⟨fun hc => absurd hc (by decide), fun hc => absurd hc hm⟩
    · intro hc; exact absurd hc hm
    · intro _
      have ht : (heif_context_add_item_name ctx item item_name).2.context.get_heif_file.get_item_type
          item = ctx.context.get_heif_file.get_item_type item := by
        unfold HeifFile.get_item_type
        rw [h2, h]
        rfl
      refine ⟨h1, ?_, ht, ?_, ?_⟩
      · unfold heif_context_get_item_name
        rw [h2]
        rfl
      · unfold heif_context_get_item_type
        rw [ht]
      · intro other hne
        have ho := add_item_name_lookup_other ctx item other item_name hne
        have hto : (heif_context_add_item_name ctx item item_name).2.context.get_heif_file.get_item_type
            other = ctx.context.get_heif_file.get_item_type other := by
          unfold HeifFile.get_item_type
          rw [ho]
        refine ⟨?_, hto, ?_, ?_, ?_⟩
        · unfold heif_context_get_item_name; rw [ho]
        · unfold heif_context_get_item_type; rw [hto]
        · unfold heif_context_get_mime_item_content_type; rw [ho]
        · unfold heif_context_get_uri_item_uri_type; rw [ho]

/-! ## Retrieving the payload -/

/-- C3. When payload resolution fails, both retrieval functions return
that error (its code and sub code, not success) and write nothing: the
output data pointer, the output size and the caller memory are exactly as
before the call. -/
theorem get_item_data_failure_writes_nothing (ctx : heif_context) (item_id : heif_item_id)
    (out_data : Option (Option (List uint8_t))) (out_data_size : Nat)
    (dest : Nat) (mem : Memory)
    (herr : (ctx.context.get_heif_file.get_compressed_image_data item_id).1.toBool = true) :
    heif_context_get_item_data ctx item_id out_data out_data_size =
        ((ctx.context.get_heif_file.get_compressed_image_data item_id).1.error_struct,
          out_data, out_data_size) ∧
      heif_context_get_item_data_void ctx item_id dest mem =
        ((ctx.context.get_heif_file.get_compressed_image_data item_id).1.error_struct, mem) ∧
      (ctx.context.get_heif_file.get_compressed_image_data item_id).1.error_struct.code =
        (ctx.context.get_heif_file.get_compressed_image_data item_id).1.error_code ∧
      (ctx.context.get_heif_file.get_compressed_image_data item_id).1.error_struct.subcode =
        (ctx.context.get_heif_file.get_compressed_image_data item_id).1.sub_error_code ∧
      (ctx.context.get_heif_file.get_compressed_image_data item_id).1.error_struct.code ≠
        heif_error_Ok := by
  refine ⟨?_, ?_, rfl, rfl, ?_⟩
  · unfold heif_context_get_item_data
    simp only [herr, if_true]
  · unfold heif_context_get_item_data_void
    simp only [herr, if_true]
  · simpa [Error.toBool, Error.error_struct] using herr

/-- Witness for C3 on item 3 of `example_ctx`, whose stored stream cannot
be decoded: both calls return the decode failure and leave the outputs as
they were. -/
theorem get_item_data_failure_writes_nothing_witness :
    (example_ctx.context.get_heif_file.get_compressed_image_data 3).1.toBool = true ∧
      heif_context_get_item_data example_ctx 3 (some (some [5])) 9 =
        (Error.DecodeFailure.error_struct, some (some [5]), 9) ∧
      heif_context_get_item_data_void example_ctx 3 0 zero_memory =
        (Error.DecodeFailure.error_struct, zero_memory) :=
  have h := get_item_data_failure_writes_nothing example_ctx 3 (some (some [5])) 9 0
    zero_memory (by decide)
  ⟨by decide, h.1, h.2.1⟩

/-- C1, as amended. The retrieval into a caller buffer takes no capacity
and makes no capacity check: whenever payload resolution succeeds it
returns success and copies the whole payload to the destination, byte `i`
of the payload to address `dest + i`, leaving every other byte of the
memory unchanged; so for every capacity below the payload size the first
byte behind the buffer is overwritten. -/
theorem get_item_data_void_copies_whole_payload (ctx : heif_context)
    (item_id : heif_item_id) (dest : Nat) (mem : Memory)
    (hok : (ctx.context.get_heif_file.get_compressed_image_data item_id).1.toBool = false) :
    (heif_context_get_item_data_void ctx item_id dest mem).1 = heif_error_success ∧
      (∀ i : Nat, (h : i < (ctx.context.get_heif_file.get_compressed_image_data item_id).2.length) →
        (heif_context_get_item_data_void ctx item_id dest mem).2 (dest + i) =
          (ctx.context.get_heif_file.get_compressed_image_data item_id).2[i]) ∧
      (∀ a : Nat, (a < dest ∨
          dest + (ctx.context.get_heif_file.get_compressed_image_data item_id).2.length ≤ a) →
        (heif_context_get_item_data_void ctx item_id dest mem).2 a = mem a) ∧
      (∀ capacity : Nat,
        (h : capacity < (ctx.context.get_heif_file.get_compressed_image_data item_id).2.length) →
        (heif_context_get_item_data_void ctx item_id dest mem).2 (dest + capacity) =
          (ctx.context.get_heif_file.get_compressed_image_data item_id).2[capacity]) := by
  have e : heif_context_get_item_data_void ctx item_id dest mem =
      (heif_error_success,
        memcpy mem dest (ctx.context.get_heif_file.get_compressed_image_data item_id).2
          (ctx.context.get_heif_file.get_compressed_image_data item_id).2.length) := by
    unfold heif_context_get_item_data_void
    simp [hok]
  have hcopy : ∀ i : Nat,
      (h : i < (ctx.context.get_heif_file.get_compressed_image_data item_id).2.length) →
      memcpy mem dest (ctx.context.get_heif_file.get_compressed_image_data item_id).2
          (ctx.context.get_heif_file.get_compressed_image_data item_id).2.length (dest + i) =
        (ctx.context.get_heif_file.get_compressed_image_data item_id).2[i] := by
    intro i h
    unfold memcpy
    rw [if_pos ⟨Nat.le_add_right _ _, by omega⟩]
    simp [List.getD, List.getElem?_eq_getElem h]
  rw [e]
  refine ⟨rfl, hcopy, ?_, hcopy⟩
  intro a ha
  show memcpy _ _ _ _ a = mem a
  unfold memcpy
  rw [if_neg (by omega)]

/-- Witness for C1 as amended, on item 1 of `example_ctx` (payload 1, 2, 3). -/
theorem get_item_data_void_copies_whole_payload_witness :
    (example_ctx.context.get_heif_file.get_compressed_image_data 1).1.toBool = false ∧
      (heif_context_get_item_data_void example_ctx 1 10 zero_memory).1 = heif_error_success ∧
      (heif_context_get_item_data_void example_ctx 1 10 zero_memory).2 9 = 0 ∧
      (heif_context_get_item_data_void example_ctx 1 10 zero_memory).2 13 = 0 :=
  have h := get_item_data_void_copies_whole_payload example_ctx 1 10 zero_memory (by decide)
  ⟨by decide, h.1, h.2.2.1 9 (Or.inl (by decide)), h.2.2.1 13 (Or.inr (by decide))⟩

/-- C1, counterexample. Item 1 of `example_ctx` has the payload 1, 2, 3. A
call with a buffer of capacity 2 at address 0, in a memory of zeros, does
not fail: it returns success, writes the bytes 1 and 2 into the buffer and
the byte 3 behind it. -/
theorem get_item_data_void_small_buffer_succeeds :
    example_ctx.context.get_heif_file.get_compressed_image_data 1 = (Error.Ok, [1, 2, 3]) ∧
      (heif_context_get_item_data_void example_ctx 1 0 zero_memory).1 = heif_error_success ∧
      (heif_context_get_item_data_void example_ctx 1 0 zero_memory).1.code = heif_error_Ok ∧
      (heif_context_get_item_data_void example_ctx 1 0 zero_memory).2 0 = 1 ∧
      (heif_context_get_item_data_void example_ctx 1 0 zero_memory).2 1 = 2 ∧
      (heif_context_get_item_data_void example_ctx 1 0 zero_memory).2 2 = 3 ∧
      zero_memory 0 = 0 ∧ zero_memory 2 = 0 := by
  decide

/-! ## Creating items -/

/-- The code of a converted error is success exactly for a good result. -/
theorem error_struct_code_ok_iff (r : Result heif_item_id) :
    r.error.error_struct.code = heif_error_Ok ↔ r.toBool = true := by
  simp [Error.error_struct, Result.toBool]

/-- C10. For each of the three item creating functions and every input,
a null `out_item_id` included: the returned code is success exactly when
the add on the file succeeded, the file after the call is the file after
that one add whether or not `out_item_id` is null, and `*out_item_id`
receives the allocated id when the add succeeded and the pointer is not
null, and is left as it was otherwise. -/
theorem add_item_status_follows_registry_add (ctx : heif_context) (s : String)
    (content_encoding : heif_metadata_compression) (data : List uint8_t) (size : Nat)
    (out_item_id : Option heif_item_id) :
    (((heif_context_add_item ctx s data size out_item_id).1.code = heif_error_Ok ↔
        (ctx.context.get_heif_file.add_infe s data size).1.toBool = true) ∧
      (heif_context_add_item ctx s data size out_item_id).2.1.context.get_heif_file =
        (ctx.context.get_heif_file.add_infe s data size).2 ∧
      (heif_context_add_item ctx s data size out_item_id).2.2 =
        if (ctx.context.get_heif_file.add_infe s data size).1.toBool = true ∧
            out_item_id ≠ none
        then some (ctx.context.get_heif_file.add_infe s data size).1.value
        else out_item_id) ∧
    (((heif_context_add_mime_item ctx s content_encoding data size out_item_id).1.code =
          heif_error_Ok ↔
        (ctx.context.get_heif_file.add_infe_mime s content_encoding data size).1.toBool = true) ∧
      (heif_context_add_mime_item ctx s content_encoding data size
          out_item_id).2.1.context.get_heif_file =
        (ctx.context.get_heif_file.add_infe_mime s content_encoding data size).2 ∧
      (heif_context_add_mime_item ctx s content_encoding data size out_item_id).2.2 =
        if (ctx.context.get_heif_file.add_infe_mime s content_encoding data size).1.toBool = true ∧
            out_item_id ≠ none
        then some (ctx.context.get_heif_file.add_infe_mime s content_encoding data size).1.value
        else out_item_id) ∧
    (((heif_context_add_uri_item ctx s data size out_item_id).1.code = heif_error_Ok ↔
        (ctx.context.get_heif_file.add_infe_uri s data size).1.toBool = true) ∧
      (heif_context_add_uri_item ctx s data size out_item_id).2.1.context.get_heif_file =
        (ctx.context.get_heif_file.add_infe_uri s data size).2 ∧
      (heif_context_add_uri_item ctx s data size out_item_id).2.2 =
        if (ctx.context.get_heif_file.add_infe_uri s data size).1.toBool = true ∧
            out_item_id ≠ none
        then some (ctx.context.get_heif_file.add_infe_uri s data size).1.value
        else out_item_id) := by
  refine ⟨?_, ?_, ?_⟩
  · unfold heif_context_add_item
    rcases h : ctx.context.get_heif_file.add_infe s data size with ⟨result, file⟩
    have hc := error_struct_code_ok_iff result
    cases hb : result.toBool <;> cases out_item_id <;>
      simp_all [heif_error_success, heif_context.with_file, HeifContext.get_heif_file]
  · unfold heif_context_add_mime_item
    rcases h : ctx.context.get_heif_file.add_infe_mime s content_encoding data size with
      ⟨result, file⟩
    have hc := error_struct_code_ok_iff result
    cases hb : result.toBool <;> cases out_item_id <;>
      simp_all [heif_error_success, heif_context.with_file, HeifContext.get_heif_file]
  · unfold heif_context_add_uri_item
    rcases h : ctx.context.get_heif_file.add_infe_uri s data size with ⟨result, file⟩
    have hc := error_struct_code_ok_iff result
    cases hb : result.toBool <;> cases out_item_id <;>
      simp_all [heif_error_success, heif_context.with_file, HeifContext.get_heif_file]

/-- C7. `heif_context_add_mime_item` with an empty content type fails with
the invalid-argument error, whatever the compression and the payload; the
context is unchanged, so no item is created and no payload stored, and
`*out_item_id` is not written. -/
theorem add_mime_item_empty_content_type_rejected (ctx : heif_context)
    (content_encoding : heif_metadata_compression) (data : List uint8_t) (size : Nat)
    (out_item_id : Option heif_item_id) :
    heif_context_add_mime_item ctx "" content_encoding data size out_item_id =
        (Error.InvalidArgument.error_struct, ctx, out_item_id) ∧
      Error.InvalidArgument.error_struct.code ≠ heif_error_Ok ∧
      (heif_context_add_mime_item ctx "" content_encoding data size
          out_item_id).2.1.context.get_heif_file.get_item_IDs =
        ctx.context.get_heif_file.get_item_IDs ∧
      (heif_context_add_mime_item ctx "" content_encoding data size
          out_item_id).2.1.context.get_heif_file.m_item_data =
        ctx.context.get_heif_file.m_item_data := by
  have e : heif_context_add_mime_item ctx "" content_encoding data size out_item_id =
      (Error.InvalidArgument.error_struct, ctx, out_item_id) := by
    unfold heif_context_add_mime_item HeifFile.add_infe_mime
    cases out_item_id <;> rfl
  rw [e]
  exact ⟨rfl, by decide, rfl, rfl⟩

/-! ## Item references -/

/-- C4, as amended. `heif_context_add_item_references` with
`num_to_items = 0` returns success: it has no invalid-argument outcome. It
hands the empty target list on to `add_iref_reference`, whose outcome it
discards, and the context after the call holds the file that this one call
leaves. -/
theorem add_item_references_empty_list_succeeds (ctx : heif_context)
    (reference_type : String) (from_item : heif_item_id) (to_item : List heif_item_id) :
    (heif_context_add_item_references ctx reference_type from_item to_item 0).1 =
        heif_error_success ∧
      (heif_context_add_item_references ctx reference_type from_item to_item 0).1.code =
        heif_error_Ok ∧
      (heif_context_add_item_references ctx reference_type from_item to_item
          0).2.context.get_heif_file =
        (ctx.context.get_heif_file.add_iref_reference from_item (fourcc reference_type)
          []).2 := by
  unfold heif_context_add_item_references
  exact ⟨rfl, rfl, rfl⟩

/-- C4, counterexample. On `example_ctx`, `heif_context_add_item_references`
with an empty target list and `num_to_items = 0` does not fail: it returns
success, with the code `heif_error_Ok`, not the invalid-argument error. -/
theorem add_item_references_empty_list_not_rejected :
    (heif_context_add_item_references example_ctx "cdsc" 2 [] 0).1 = heif_error_success ∧
      (heif_context_add_item_references example_ctx "cdsc" 2 [] 0).1.code = heif_error_Ok ∧
      (heif_context_add_item_references example_ctx "cdsc" 2 [] 0).1 ≠
        Error.InvalidArgument.error_struct := by
  decide

/-- The file after adding an edge with at least one target. -/
theorem add_iref_reference_non_empty (f : HeifFile) (from_ : heif_item_id) (type : Nat)
    (t : heif_item_id) (rest : List heif_item_id) :
    f.add_iref_reference from_ type (t :: rest) =
      (Error.Ok, { f with m_references := f.m_references ++ [⟨from_, type, t :: rest⟩] }) := by
  rfl

/-- The edges of one source and relation after adding an edge with at least
one target. -/
theorem references_of_add_iref_reference (f : HeifFile) (from_ : heif_item_id) (type : Nat)
    (t : heif_item_id) (rest : List heif_item_id) :
    (f.add_iref_reference from_ type (t :: rest)).2.references_of from_ type =
      f.references_of from_ type ++ [⟨from_, type, t :: rest⟩] := by
  rw [add_iref_reference_non_empty]
  simp [HeifFile.references_of, List.filter_append]

/-- C5. Edges are additive. After `heif_context_add_item_references` with
targets `a, b` and then with target `c`, for the same source and relation,
both calls succeed, the references of that source and relation are the
earlier ones followed by the record with targets `a, b` and then the record
with target `c`, two distinct records; the whole graph is the earlier graph,
unchanged and in place, followed by these two records.  The single target
function `heif_context_add_item_reference` does the same as a call with a
list of one target. -/
theorem add_item_references_additive (ctx : heif_context) (reference_type : String)
    (from_item a b c : heif_item_id) :
    (heif_context_add_item_references ctx reference_type from_item [a, b] 2).1 =
        heif_error_success ∧
      (heif_context_add_item_references
          (heif_context_add_item_references ctx reference_type from_item [a, b] 2).2
          reference_type from_item [c] 1).1 = heif_error_success ∧
      (heif_context_add_item_references
          (heif_context_add_item_references ctx reference_type from_item [a, b] 2).2
          reference_type from_item [c] 1).2.context.get_heif_file.references_of from_item
          (fourcc reference_type) =
        ctx.context.get_heif_file.references_of from_item (fourcc reference_type) ++
          [⟨from_item, fourcc reference_type, [a, b]⟩,
           ⟨from_item, fourcc reference_type, [c]⟩] ∧
      (heif_context_add_item_references
          (heif_context_add_item_references ctx reference_type from_item [a, b] 2).2
          reference_type from_item [c] 1).2.context.get_heif_file.m_references =
        ctx.context.get_heif_file.m_references ++
          [⟨from_item, fourcc reference_type, [a, b]⟩,
           ⟨from_item, fourcc reference_type, [c]⟩] ∧
      (⟨from_item, fourcc reference_type, [a, b]⟩ : Reference) ≠
        ⟨from_item, fourcc reference_type, [c]⟩ ∧
      heif_context_add_item_reference
          (heif_context_add_item_references ctx reference_type from_item [a, b] 2).2
          reference_type from_item c =
        heif_context_add_item_references
          (heif_context_add_item_references ctx reference_type from_item [a, b] 2).2
          reference_type from_item [c] 1 := by
  refine ⟨rfl, rfl, ?_, ?_, ?_, rfl⟩
  · show ((ctx.context.get_heif_file.add_iref_reference from_item (fourcc reference_type)
        [a, b]).2.add_iref_reference from_item (fourcc reference_type) [c]).2.references_of
        from_item (fourcc reference_type) = _
    rw [references_of_add_iref_reference, references_of_add_iref_reference]
    simp
  · show (ctx.context.get_heif_file.m_references ++ [_]) ++ [_] = _
    simp
  · intro h
    simp at h

/-! ## Round trip of the payload -/

/-- Every element of a list is at most the running maximum over it. -/
theorem le_foldl_max (l : List Nat) (init x : Nat) (h : x ≤ init ∨ x ∈ l) :
    x ≤ l.foldl max init := by
  induction l generalizing init with
  | nil => simpa using h
  | cons y rest ih =>
    simp only [List.foldl_cons]
    apply ih
    rcases h with h | h
    · exact Or.inl (le_trans h (le_max_left _ _))
    · rcases List.mem_cons.1 h with h | h
      · exact Or.inl (h ▸ le_max_right _ _)
      · exact Or.inr h

/-- The next unused id is above the id of every registered item. -/
theorem get_unused_item_id_fresh (f : HeifFile) (b : Box_infe) (hb : b ∈ f.m_infe_boxes) :
    b.get_item_ID < f.get_unused_item_id := by
  unfold HeifFile.get_unused_item_id
  have : b.get_item_ID ≤ f.get_item_IDs.foldl max 0 :=
    le_foldl_max _ _ _ (Or.inr (List.mem_map_of_mem _ hb))
  exact Nat.lt_succ_of_le this

/-- The payload of a freshly created item resolves to the bytes it was
created with, when the codec is reversible. -/
theorem add_item_with_data_round_trip (f : HeifFile) (hrev : f.m_codec.reversible)
    (item_type content_type item_uri_type : String)
    (compression : heif_metadata_compression) (bytes : List uint8_t)
    (hok : (f.add_item_with_data item_type content_type item_uri_type compression bytes).1.toBool
      = true) :
    (f.add_item_with_data item_type content_type item_uri_type compression
        bytes).2.get_compressed_image_data
      (f.add_item_with_data item_type content_type item_uri_type compression bytes).1.value =
      (Error.Ok, bytes) := by
  unfold HeifFile.add_item_with_data at hok ⊢
  cases henc : f.encode_payload compression bytes with
  | none => simp [henc, Result.toBool, Error.UnsupportedCompression] at hok
  | some stored =>
    simp only [henc] at hok ⊢
    by_cases hid : f.get_unused_item_id < 2 ^ 32
    · rw [if_pos hid]
      have hfind : (f.m_infe_boxes ++
          [(⟨f.get_unused_item_id, item_type, "", content_type, item_uri_type, compression⟩ :
            Box_infe)]).find? (fun x => x.get_item_ID == f.get_unused_item_id) =
          some ⟨f.get_unused_item_id, item_type, "", content_type, item_uri_type, compression⟩ := by
        have hnone : f.m_infe_boxes.find? (fun x => x.get_item_ID == f.get_unused_item_id) =
            none := by
          rw [List.find?_eq_none]
          intro x hx
          have := get_unused_item_id_fresh f x hx
          simp only [beq_iff_eq]
          exact Nat.ne_of_lt this
        rw [List.find?_append, hnone]
        simp [Box_infe.get_item_ID]
      unfold HeifFile.get_compressed_image_data HeifFile.get_infe_box
      simp only [hfind, List.lookup_cons, beq_self_eq_true, Option.getD_some]
      unfold HeifFile.encode_payload at henc
      by_cases hoff : compression = heif_metadata_compression_off
      · simp only [hoff, if_true] at henc ⊢
        rw [Option.some.inj henc]
      · simp only [hoff, if_false] at henc ⊢
        rw [hrev compression bytes stored henc]
    · rw [if_neg hid] at hok
      simp [Result.toBool, Error.AllocationFailure] at hok

/-- The allocating retrieval of a payload that resolves without error. -/
theorem get_item_data_of_resolved (ctx : heif_context) (item_id : heif_item_id)
    (bytes : List uint8_t)
    (h : ctx.context.get_heif_file.get_compressed_image_data item_id = (Error.Ok, bytes))
    (out_data : Option (List uint8_t)) (out_data_size : Nat) :
    heif_context_get_item_data ctx item_id (some out_data) out_data_size =
      (heif_error_success, some (some bytes), bytes.length) := by
  unfold heif_context_get_item_data
  rw [h]
  simp [Error.toBool, Error.Ok]

/-- The example codec is reversible. -/
theorem example_codec_reversible : example_codec.reversible := by
  intro name bytes stored h
  unfold example_codec at h ⊢
  by_cases hn : name = heif_metadata_compression_deflate
  · simp only [hn, if_true, Option.some.injEq] at h ⊢
    subst h
    simp
  · simp [hn] at h

/-- A creation with data succeeds exactly when the declared transform is
accepted and the id space is not exhausted. -/
theorem add_item_with_data_ok_iff (f : HeifFile)
    (item_type content_type item_uri_type : String)
    (compression : heif_metadata_compression) (bytes : List uint8_t) :
    (f.add_item_with_data item_type content_type item_uri_type compression bytes).1.toBool
        = true ↔
      ((f.encode_payload compression bytes).isSome = true ∧ f.get_unused_item_id < 2 ^ 32) := by
  unfold HeifFile.add_item_with_data
  cases henc : f.encode_payload compression bytes with
  | none => simp [Result.toBool, Error.UnsupportedCompression]
  | some stored =>
    dsimp only
    by_cases hid : f.get_unused_item_id < 2 ^ 32
    · rw [if_pos hid]
      exact ⟨fun _ => ⟨rfl, hid⟩, fun _ => rfl⟩
    · rw [if_neg hid]
      refine ⟨fun h => ?_, fun h => absurd h.2 hid⟩
      simp [Result.toBool, Error.AllocationFailure] at h

/-- A successful creation with data delivers the next unused id. -/
theorem add_item_with_data_value (f : HeifFile)
    (item_type content_type item_uri_type : String)
    (compression : heif_metadata_compression) (bytes : List uint8_t)
    (hok : (f.add_item_with_data item_type content_type item_uri_type compression bytes).1.toBool
      = true) :
    (f.add_item_with_data item_type content_type item_uri_type compression bytes).1.value =
      f.get_unused_item_id := by
  unfold HeifFile.add_item_with_data at hok ⊢
  cases henc : f.encode_payload compression bytes with
  | none => simp [henc, Result.toBool, Error.UnsupportedCompression] at hok
  | some stored =>
    simp only [henc] at hok ⊢
    by_cases hid : f.get_unused_item_id < 2 ^ 32
    · rw [if_pos hid]
    · rw [if_neg hid] at hok
      simp [Result.toBool, Error.AllocationFailure] at hok

/-- The common tail of the item creating functions, for a non-null
`out_item_id`: the code is success exactly for a good result, and then the
id is delivered and its payload read back. -/
theorem deliver_then_get (ctx : heif_context) (bytes : List uint8_t)
    (old_id id : heif_item_id) (out_data : Option (List uint8_t)) (out_data_size : Nat)
    (r : Result heif_item_id × HeifFile)
    (hr : r.1.toBool = true →
      r.1.value = id ∧ r.2.get_compressed_image_data id = (Error.Ok, bytes)) :
    ((if r.1.toBool && (some old_id).isSome then
          (heif_error_success, ctx.with_file r.2, some r.1.value)
        else (r.1.error.error_struct, ctx.with_file r.2, some old_id)).1.code = heif_error_Ok ↔
        r.1.toBool = true) ∧
      ((if r.1.toBool && (some old_id).isSome then
          (heif_error_success, ctx.with_file r.2, some r.1.value)
        else (r.1.error.error_struct, ctx.with_file r.2, some old_id)).1.code = heif_error_Ok →
        (if r.1.toBool && (some old_id).isSome then
          (heif_error_success, ctx.with_file r.2, some r.1.value)
        else (r.1.error.error_struct, ctx.with_file r.2, some old_id)).2.2 = some id ∧
        heif_context_get_item_data
          (if r.1.toBool && (some old_id).isSome then
            (heif_error_success, ctx.with_file r.2, some r.1.value)
          else (r.1.error.error_struct, ctx.with_file r.2, some old_id)).2.1 id
          (some out_data) out_data_size =
          (heif_error_success, some (some bytes), bytes.length)) := by
  have hc := error_struct_code_ok_iff r.1
  cases hb : r.1.toBool
  · simp only [Bool.false_and, Bool.false_eq_true, if_false]
    rw [hc, hb]
    exact ⟨⟨fun h => absurd h (by decide), False.elim⟩, fun h => absurd h (by decide)⟩
  · simp only [Option.isSome_some, Bool.and_self, if_true]
    obtain ⟨hv, hg⟩ := hr hb
    refine ⟨⟨fun _ => trivial, fun _ => rfl⟩, fun _ => ⟨?_, ?_⟩⟩
    · show some r.1.value = some id
      rw [hv]
    · exact get_item_data_of_resolved (ctx.with_file r.2) id bytes hg _ _

/-- C2. Round trip, for a reversible codec.  Each of the three item
creating functions, called with `bytes` and a non-null `out_item_id`,
reports success exactly when the file accepts the item: always but for an
exhausted id space for `heif_context_add_item`; for a non-empty content type
and a transform that the codec accepts for `heif_context_add_mime_item`,
whatever compression is declared; for a non-empty URI type for
`heif_context_add_uri_item`.  Whenever it reports success it delivers the
next unused id, and the allocating retrieval on that id in the new context
succeeds, reports the size `bytes.length` and yields a new buffer equal to
`bytes`. -/
theorem put_then_get_allocating_round_trip (ctx : heif_context)
    (hrev : ctx.context.get_heif_file.m_codec.reversible) (bytes : List uint8_t)
    (s : String) (content_encoding : heif_metadata_compression) (old_id : heif_item_id)
    (out_data : Option (List uint8_t)) (out_data_size : Nat) :
    (((heif_context_add_item ctx s bytes bytes.length (some old_id)).1.code = heif_error_Ok ↔
        ctx.context.get_heif_file.get_unused_item_id < 2 ^ 32) ∧
      ((heif_context_add_item ctx s bytes bytes.length (some old_id)).1.code = heif_error_Ok →
        (heif_context_add_item ctx s bytes bytes.length (some old_id)).2.2 =
          some ctx.context.get_heif_file.get_unused_item_id ∧
        heif_context_get_item_data
            (heif_context_add_item ctx s bytes bytes.length (some old_id)).2.1
            ctx.context.get_heif_file.get_unused_item_id (some out_data) out_data_size =
          (heif_error_success, some (some bytes), bytes.length))) ∧
    (((heif_context_add_mime_item ctx s content_encoding bytes bytes.length
          (some old_id)).1.code = heif_error_Ok ↔
        (s.isEmpty = false ∧
          (ctx.context.get_heif_file.encode_payload content_encoding bytes).isSome = true ∧
          ctx.context.get_heif_file.get_unused_item_id < 2 ^ 32)) ∧
      ((heif_context_add_mime_item ctx s content_encoding bytes bytes.length
          (some old_id)).1.code = heif_error_Ok →
        (heif_context_add_mime_item ctx s content_encoding bytes bytes.length
          (some old_id)).2.2 = some ctx.context.get_heif_file.get_unused_item_id ∧
        heif_context_get_item_data
            (heif_context_add_mime_item ctx s content_encoding bytes bytes.length
              (some old_id)).2.1
            ctx.context.get_heif_file.get_unused_item_id (some out_data) out_data_size =
          (heif_error_success, some (some bytes), bytes.length))) ∧
    (((heif_context_add_uri_item ctx s bytes bytes.length (some old_id)).1.code =
          heif_error_Ok ↔
        (s.isEmpty = false ∧ ctx.context.get_heif_file.get_unused_item_id < 2 ^ 32)) ∧
      ((heif_context_add_uri_item ctx s bytes bytes.length (some old_id)).1.code =
          heif_error_Ok →
        (heif_context_add_uri_item ctx s bytes bytes.length (some old_id)).2.2 =
          some ctx.context.get_heif_file.get_unused_item_id ∧
        heif_context_get_item_data
            (heif_context_add_uri_item ctx s bytes bytes.length (some old_id)).2.1
            ctx.context.get_heif_file.get_unused_item_id (some out_data) out_data_size =
          (heif_error_success, some (some bytes), bytes.length))) := by
  have hoff : ∀ b : List uint8_t,
      (ctx.context.get_heif_file.encode_payload heif_metadata_compression_off b).isSome =
        true := by
    intro b
    simp [HeifFile.encode_payload]
  refine ⟨?_, ?_, ?_⟩
  · have hiff : (ctx.context.get_heif_file.add_infe s bytes bytes.length).1.toBool = true ↔
        ctx.context.get_heif_file.get_unused_item_id < 2 ^ 32 := by
      unfold HeifFile.add_infe
      rw [add_item_with_data_ok_iff]
      exact ⟨fun h => h.2, fun h => ⟨hoff _, h⟩⟩
    have hr : (ctx.context.get_heif_file.add_infe s bytes bytes.length).1.toBool = true →
        (ctx.context.get_heif_file.add_infe s bytes bytes.length).1.value =
            ctx.context.get_heif_file.get_unused_item_id ∧
          (ctx.context.get_heif_file.add_infe s bytes
              bytes.length).2.get_compressed_image_data
            ctx.context.get_heif_file.get_unused_item_id = (Error.Ok, bytes) := by
      intro hok
      unfold HeifFile.add_infe at hok ⊢
      rw [List.take_length] at hok ⊢
      have hv := add_item_with_data_value _ _ _ _ _ _ hok
      have hg := add_item_with_data_round_trip _ hrev _ _ _ _ _ hok
      rw [hv] at hg
      exact ⟨hv, hg⟩
    obtain ⟨k1, k2⟩ := deliver_then_get ctx bytes old_id _ out_data out_data_size
      (ctx.context.get_heif_file.add_infe s bytes bytes.length) hr
    exact ⟨k1.trans hiff, k2⟩
  · have hiff : (ctx.context.get_heif_file.add_infe_mime s content_encoding bytes
          bytes.length).1.toBool = true ↔
        (s.isEmpty = false ∧
          (ctx.context.get_heif_file.encode_payload content_encoding bytes).isSome = true ∧
          ctx.context.get_heif_file.get_unused_item_id < 2 ^ 32) := by
      unfold HeifFile.add_infe_mime
      rw [List.take_length]
      cases he : s.isEmpty
      · simp only [Bool.false_eq_true, if_false]
        rw [add_item_with_data_ok_iff]
        exact ⟨fun h => ⟨by trivial, h⟩, fun h => h.2⟩
      · simp [Result.toBool, Error.InvalidArgument]
    have hr : (ctx.context.get_heif_file.add_infe_mime s content_encoding bytes
          bytes.length).1.toBool = true →
        (ctx.context.get_heif_file.add_infe_mime s content_encoding bytes
            bytes.length).1.value = ctx.context.get_heif_file.get_unused_item_id ∧
          (ctx.context.get_heif_file.add_infe_mime s content_encoding bytes
              bytes.length).2.get_compressed_image_data
            ctx.context.get_heif_file.get_unused_item_id = (Error.Ok, bytes) := by
      intro hok
      have he : s.isEmpty = false := (hiff.1 hok).1
      unfold HeifFile.add_infe_mime at hok ⊢
      rw [List.take_length] at hok ⊢
      simp only [he, Bool.false_eq_true, if_false] at hok ⊢
      have hv := add_item_with_data_value _ _ _ _ _ _ hok
      have hg := add_item_with_data_round_trip _ hrev _ _ _ _ _ hok
      rw [hv] at hg
      exact ⟨hv, hg⟩
    obtain ⟨k1, k2⟩ := deliver_then_get ctx bytes old_id _ out_data out_data_size
      (ctx.context.get_heif_file.add_infe_mime s content_encoding bytes bytes.length) hr
    exact ⟨k1.trans hiff, k2⟩
  · have hiff : (ctx.context.get_heif_file.add_infe_uri s bytes bytes.length).1.toBool = true ↔
        (s.isEmpty = false ∧ ctx.context.get_heif_file.get_unused_item_id < 2 ^ 32) := by
      unfold HeifFile.add_infe_uri
      rw [List.take_length]
      cases he : s.isEmpty
      · simp only [Bool.false_eq_true, if_false]
        rw [add_item_with_data_ok_iff]
        exact ⟨fun h => ⟨by trivial, h.2⟩, fun h => ⟨hoff _, h.2⟩⟩
      · simp [Result.toBool, Error.InvalidArgument]
    have hr : (ctx.context.get_heif_file.add_infe_uri s bytes bytes.length).1.toBool = true →
        (ctx.context.get_heif_file.add_infe_uri s bytes bytes.length).1.value =
            ctx.context.get_heif_file.get_unused_item_id ∧
          (ctx.context.get_heif_file.add_infe_uri s bytes
              bytes.length).2.get_compressed_image_data
            ctx.context.get_heif_file.get_unused_item_id = (Error.Ok, bytes) := by
      intro hok
      have he : s.isEmpty = false := (hiff.1 hok).1
      unfold HeifFile.add_infe_uri at hok ⊢
      rw [List.take_length] at hok ⊢
      simp only [he, Bool.false_eq_true, if_false] at hok ⊢
      have hv := add_item_with_data_value _ _ _ _ _ _ hok
      have hg := add_item_with_data_round_trip _ hrev _ _ _ _ _ hok
      rw [hv] at hg
      exact ⟨hv, hg⟩
    obtain ⟨k1, k2⟩ := deliver_then_get ctx bytes old_id _ out_data out_data_size
      (ctx.context.get_heif_file.add_infe_uri s bytes bytes.length) hr
    exact ⟨k1.trans hiff, k2⟩

/-- Witness for C2 on `example_ctx`, whose next unused id is 4, with the
payload 4, 5, 6 stored through each of the three functions: a plain item of
type "av01", a MIME item with compression deflate (stored as 0, 6, 5, 4) and
a URI item.  Each call reports success and delivers id 4, and the allocating
retrieval of id 4 returns 4, 5, 6 and the size 3. -/
theorem put_then_get_allocating_round_trip_witness :
    example_ctx.context.get_heif_file.m_codec.reversible ∧
      ((heif_context_add_item example_ctx "av01" [4, 5, 6] 3 (some 0)).1.code = heif_error_Ok ∧
        (heif_context_add_item example_ctx "av01" [4, 5, 6] 3 (some 0)).2.2 = some 4 ∧
        heif_context_get_item_data
            (heif_context_add_item example_ctx "av01" [4, 5, 6] 3 (some 0)).2.1 4
            (some none) 0 =
          (heif_error_success, some (some [4, 5, 6]), 3)) ∧
      ((heif_context_add_mime_item example_ctx "text/plain" heif_metadata_compression_deflate
          [4, 5, 6] 3 (some 0)).1.code = heif_error_Ok ∧
        (heif_context_add_mime_item example_ctx "text/plain" heif_metadata_compression_deflate
          [4, 5, 6] 3 (some 0)).2.2 = some 4 ∧
        (heif_context_add_mime_item example_ctx "text/plain" heif_metadata_compression_deflate
          [4, 5, 6] 3 (some 0)).2.1.context.get_heif_file.m_item_data.lookup 4 =
          some [0, 6, 5, 4] ∧
        heif_context_get_item_data
            (heif_context_add_mime_item example_ctx "text/plain"
              heif_metadata_compression_deflate [4, 5, 6] 3 (some 0)).2.1 4 (some none) 0 =
          (heif_error_success, some (some [4, 5, 6]), 3)) ∧
      ((heif_context_add_uri_item example_ctx "urn:x" [4, 5, 6] 3 (some 0)).1.code =
          heif_error_Ok ∧
        (heif_context_add_uri_item example_ctx "urn:x" [4, 5, 6] 3 (some 0)).2.2 = some 4 ∧
        heif_context_get_item_data
            (heif_context_add_uri_item example_ctx "urn:x" [4, 5, 6] 3 (some 0)).2.1 4
            (some none) 0 =
          (heif_error_success, some (some [4, 5, 6]), 3)) := by
  have h1 := put_then_get_allocating_round_trip example_ctx example_codec_reversible
    [4, 5, 6] "av01" heif_metadata_compression_off 0 none 0
  have h2 := put_then_get_allocating_round_trip example_ctx example_codec_reversible
    [4, 5, 6] "text/plain" heif_metadata_compression_deflate 0 none 0
  have h3 := put_then_get_allocating_round_trip example_ctx example_codec_reversible
    [4, 5, 6] "urn:x" heif_metadata_compression_off 0 none 0
  have c1 := h1.1.1.2 (by decide)
  have c2 := h2.2.1.1.2 (by decide)
  have c3 := h3.2.2.1.2 (by decide)
  exact ⟨example_codec_reversible,
    ⟨c1, (h1.1.2 c1).1, (h1.1.2 c1).2⟩,
    ⟨c2, (h2.2.1.2 c2).1, by decide, (h2.2.1.2 c2).2⟩,
    ⟨c3, (h3.2.2.2 c3).1, (h3.2.2.2 c3).2⟩⟩

end libheif
